import Mathlib

/-!
Verification development for the single-header terminal input library
(src/input.hpp, namespace in). The C++ is shallowly embedded: keystrokes and
display bytes are Int values (the EOF return of getchar surfaces as -1 after
the cast to char), a Check is a total function returning Except (a thrown
InvalidInputException is an error value carrying its message), and the two
unbounded loops (basic_input and validate) take explicit fuel. The Linux
branch of the preprocessor conditionals is the one embedded.
-/

set_option autoImplicit false

namespace In

/-- Default error message of InvalidInputException, in::INVALID_INPUT_PROMPT. -/
def INVALID_INPUT_PROMPT : String := "Invalid Input"

/-- Mask glyph in::INPUT_MASK, the byte of the character star (42). -/
def INPUT_MASK : Int := 42

/-- Embedding of in::Check, std::function of void(std::string): a check either
returns (Except.ok) or throws InvalidInputException with a message
(Except.error with the message string). -/
abbrev Check := String → Except String Unit

/-- Terminal local-mode flags relevant to getch: the ICANON and ECHO bits of
c_lflag, plus all remaining bits abstracted as one Nat. -/
structure TermFlags where
  icanon : Bool
  echo : Bool
  other : Nat
  deriving DecidableEq

/-- Console state threaded through the raw-input layer: the terminal flags,
the pending standard-input bytes, and the bytes written to standard output. -/
structure ConsoleState where
  flags : TermFlags
  stdin : List Int
  stdout : List Int
  deriving DecidableEq

/-- Newline code of the Linux branch of basic_input (const char NEWLINE = 10). -/
def NEWLINE : Int := 10

/-- Backspace code of the Linux branch (const char BACKSPACE = 127). -/
def BACKSPACE : Int := 127

/-- Cursor-back code of the Linux branch (const char CURSOR_BACK = 8). -/
def CURSOR_BACK : Int := 8

/-- Byte of the space character written by the visual erase in basic_input. -/
def SPACE : Int := 32

/-- Embedding of in::_infuncs::getch (Linux branch). It reads the current
flags with tcgetattr, clears ICANON and ECHO via tcsetattr, calls getchar
(which returns the next pending byte, or EOF = -1 cast to char when input is
exhausted), then sets ICANON and ECHO via tcsetattr and returns the byte.
Note the final tcsetattr ORs the two bits into the flags it already cleared,
it does not restore the value saved on entry. The std::cin failbit block
before getchar never fires, because nothing in the library reads through
std::cin and its failbit is never set, so it is embedded as a no-op. -/
def getch (st : ConsoleState) : Int × ConsoleState :=
  let during : TermFlags := { st.flags with icanon := false, echo := false }
  let readRes : Int × List Int :=
    match st.stdin with
    | [] => (-1, [])
    | c :: rest => (c, rest)
  let restored : TermFlags := { during with icanon := true, echo := true }
  (readRes.1, { st with flags := restored, stdin := readRes.2 })

/-- Embedding of in::infuncs::basic_input (Linux branch), with explicit fuel
for the do-while loop. Each iteration reads one byte with getch; BACKSPACE
pops the accumulator if non-empty and writes the three-byte visual erase;
NEWLINE ends the loop without being appended or echoed; any other byte is
appended and echoed as itself, or as the mask byte when a mask is given.
Returns the accumulated bytes and final console state, or none when fuel
runs out before a NEWLINE is read. -/
def basicInput (mask : Option Int) : Nat → ConsoleState → List Int → Option (List Int × ConsoleState)
  | 0, _, _ => none
  | fuel + 1, st, acc =>
    let r := getch st
    if r.1 = BACKSPACE then
      if acc.isEmpty then
        basicInput mask fuel r.2 acc
      else
        basicInput mask fuel
          { r.2 with stdout := r.2.stdout ++ [CURSOR_BACK, SPACE, CURSOR_BACK] } acc.dropLast
    else if r.1 = NEWLINE then
      some (acc, r.2)
    else
      basicInput mask fuel
        { r.2 with stdout := r.2.stdout ++ [mask.getD r.1] } (acc ++ [r.1])

/-- Result of one pass of the check loop in in::validate: none when every
check returned normally, otherwise the message of the first check that threw
InvalidInputException (the loop breaks there). -/
def runChecks (cs : List Check) (s : String) : Option String :=
  match cs with
  | [] => none
  | c :: rest =>
    match c s with
    | Except.ok _ => runChecks rest s
    | Except.error msg => some msg

/-- Retry loop of in::validate, with explicit fuel. The input function is
modelled as the sequence of strings its successive invocations produce. -/
def validateLoop (f : Nat → String) (cs : List Check) : Nat → Nat → Option String
  | 0, _ => none
  | fuel + 1, attempt =>
    match runChecks cs (f attempt) with
    | none => some (f attempt)
    | some _ => validateLoop f cs fuel (attempt + 1)

/-- Embedding of in::validate. With an empty check pack (the if constexpr
branch on sizeof...(Checks)) the input function is invoked exactly once and
its result returned unchecked; otherwise the retry loop runs until an
attempt passes every check, none when fuel is exhausted first. -/
def validate (fuel : Nat) (f : Nat → String) (cs : List Check) : Option String :=
  if cs.isEmpty then some (f 0) else validateLoop f cs fuel 0

end In

namespace In.checks

/-- Whether a byte matches the dot atom of an ECMAScript std::regex: any
character other than a line terminator, which for the char specialization
means anything but LF and CR. -/
def dotMatch (c : Char) : Bool :=
  c ≠ '\n' && c ≠ '\r'

/-- Embedding of in::checks::length, which is matches_regex applied to the
anchored ECMAScript pattern of exactly n dot atoms: the candidate matches
iff it has exactly n characters and none of them is a line terminator. -/
def length (n : Nat) : Check := fun s =>
  if s.toList.length = n ∧ ∀ c ∈ s.toList, dotMatch c = true then Except.ok ()
  else Except.error In.INVALID_INPUT_PROMPT

/-- Items of an ECMAScript character class body: a dash between two
characters forms a range, every other character stands for itself (a
singleton range). Faithful for class bodies free of escapes and of an
unescaped closing bracket, which the library never produces itself. -/
def parseClassItems : List Char → List (Char × Char)
  | [] => []
  | a :: '-' :: b :: rest2 => (a, b) :: parseClassItems rest2
  | a :: rest => (a, a) :: parseClassItems rest

/-- Whether a character matches the ECMAScript character class with the given
body: a leading caret negates, otherwise the character must fall in one of
the parsed ranges (inclusive, by code point). -/
def classMatches (l : List Char) (x : Char) : Bool :=
  match l with
  | '^' :: rest => !((parseClassItems rest).any fun p => decide (p.1 ≤ x) && decide (x ≤ p.2))
  | _ => (parseClassItems l).any fun p => decide (p.1 ≤ x) && decide (x ≤ p.2)

/-- Embedding of in::checks::consists_of, which is matches_regex applied to
the anchored pattern that wraps the given string verbatim in a character
class repeated one or more times: the candidate matches iff it is non-empty
and every character matches that class. -/
def consists_of (string_of_char : String) : Check := fun s =>
  if s.toList ≠ [] ∧ ∀ c ∈ s.toList, classMatches string_of_char.toList c = true then Except.ok ()
  else Except.error In.INVALID_INPUT_PROMPT

/-- Syntax accepted by the regex that in::checks::numeric builds for a signed
integral type: an optional leading minus followed by one or more digits,
anchored. -/
def numericIntSyntax : List Char → Bool
  | '-' :: rest => !rest.isEmpty && rest.all Char.isDigit
  | l => !l.isEmpty && l.all Char.isDigit

/-- Embedding of in::checks::numeric instantiated at int: matches_regex on
the anchored signed-integer pattern. -/
def numericInt : Check := fun s =>
  if numericIntSyntax s.toList then Except.ok ()
  else Except.error In.INVALID_INPUT_PROMPT

/-- Value of a digit string, most significant first. -/
def digitsToNat (l : List Char) : Nat :=
  l.foldl (fun acc c => acc * 10 + (c.toNat - 48)) 0

/-- Smallest value of the int instantiation, INT_MIN on the target. -/
def INT_MIN : Int := -2147483648

/-- Largest value of the int instantiation, INT_MAX on the target. -/
def INT_MAX : Int := 2147483647

/-- Embedding of extraction with std::stringstream into an int, as used by
in::checks::range after the numeric check passed: an optional sign followed
by a maximal run of digits; none when there is no digit or the value
overflows int, in which case the stream reports failure. -/
def parseIntStream (s : String) : Option Int :=
  let p : Bool × List Char :=
    match s.toList with
    | '-' :: rest => (true, rest)
    | '+' :: rest => (false, rest)
    | l => (false, l)
  let digits := p.2.takeWhile Char.isDigit
  if digits.isEmpty then none
  else
    let v : Int := if p.1 then -(digitsToNat digits : Int) else (digitsToNat digits : Int)
    if v < INT_MIN ∨ INT_MAX < v then none else some v

/-- Embedding of in::checks::range instantiated at int. It first runs the
numeric check (whose exception propagates on failure), then extracts the
value with a stringstream and throws the default InvalidInputException when
the stream failed or the value falls outside the inclusive bounds. -/
def range (mininimum maximum : Int) : Check := fun s =>
  match numericInt s with
  | Except.error msg => Except.error msg
  | Except.ok _ =>
    match parseIntStream s with
    | none => Except.error In.INVALID_INPUT_PROMPT
    | some v =>
      if v < mininimum ∨ maximum < v then Except.error In.INVALID_INPUT_PROMPT
      else Except.ok ()

/-- Value a char variable holds after storing the given byte: char is signed
on the target, so bytes of 128 and above wrap to negative values. Faithful
for candidates over the byte range, which is all basic_input can produce. -/
def charAsSignedInt (c : Char) : Int :=
  if c.toNat < 128 then (c.toNat : Int) else (c.toNat : Int) - 256

/-- Embedding of extraction with std::stringstream into a char, as used when
range is instantiated at char: the stream operator for char does not parse a
numeral, it reads the single next character and stores its code, failing
only when the input is empty. -/
def parseCharStream (s : String) : Option Int :=
  match s.toList with
  | [] => none
  | c :: _ => some (charAsSignedInt c)

/-- Embedding of in::checks::numeric instantiated at char: char is
arithmetic, not floating point, and signed on the target, so the same
anchored signed-integer pattern is built as for int. -/
def numericChar : Check := fun s =>
  if numericIntSyntax s.toList then Except.ok ()
  else Except.error In.INVALID_INPUT_PROMPT

/-- Embedding of in::checks::range instantiated at char: the numeric char
check first (its exception propagates), then stringstream extraction into a
char variable, which reads one character rather than parsing a numeral, then
the inclusive bounds test on the stored character code. -/
def rangeChar (mininimum maximum : Int) : Check := fun s =>
  match numericChar s with
  | Except.error msg => Except.error msg
  | Except.ok _ =>
    match parseCharStream s with
    | none => Except.error In.INVALID_INPUT_PROMPT
    | some v =>
      if v < mininimum ∨ maximum < v then Except.error In.INVALID_INPUT_PROMPT
      else Except.ok ()

end In.checks

namespace In.checks.wrappers

/-- Embedding of in::checks::wrappers::custom: runs the wrapped check and
replaces the message of a thrown InvalidInputException with the given one. -/
def custom (check : Check) (error_message : String) : Check := fun s =>
  match check s with
  | Except.ok _ => Except.ok ()
  | Except.error _ => Except.error error_message

/-- Embedding of in::checks::wrappers::inverse: returns normally exactly when
the wrapped check throws InvalidInputException, and throws the default
InvalidInputException exactly when the wrapped check returns normally. -/
def inverse (check : Check) : Check := fun s =>
  match check s with
  | Except.error _ => Except.ok ()
  | Except.ok _ => Except.error In.INVALID_INPUT_PROMPT

/-- Loop body of in::checks::wrappers::any: try each check in order, return
normally on the first that does not throw, and throw the default
InvalidInputException after all have thrown. -/
def anyLoop (s : String) : List Check → Except String Unit
  | [] => Except.error In.INVALID_INPUT_PROMPT
  | c :: rest =>
    match c s with
    | Except.ok _ => Except.ok ()
    | Except.error _ => anyLoop s rest

/-- Embedding of in::checks::wrappers::any over a list of checks (the
variadic pack spliced into the braced initializer list of the range-for). -/
def any (cs : List Check) : Check := fun s => anyLoop s cs

end In.checks.wrappers

namespace In

deriving instance DecidableEq for Except

/-- Check loop reports no failure exactly when every check in the list
returns normally on the candidate. -/
theorem runChecks_eq_none_iff (cs : List Check) (s : String) :
    runChecks cs s = none ↔ ∀ c ∈ cs, c s = Except.ok () := by
  induction cs with
  | nil => simp [runChecks]
  | cons c rest ih =>
    cases h : c s with
    | ok u => cases u; simp [runChecks, h, ih]
    | error m => simp [runChecks, h, List.forall_mem_cons]

/-- Any string the retry loop of validate returns passed the check loop. -/
theorem validateLoop_some (f : Nat → String) (cs : List Check) :
    ∀ (fuel attempt : Nat) (s : String),
      validateLoop f cs fuel attempt = some s → runChecks cs s = none := by
  intro fuel
  induction fuel with
  | zero => intro attempt s h; simp [validateLoop] at h
  | succ n ih =>
    intro attempt s h
    simp only [validateLoop] at h
    cases hr : runChecks cs (f attempt) with
    | none =>
      rw [hr] at h
      simp only [Option.some.injEq] at h
      rw [← h]
      exact hr
    | some m =>
      rw [hr] at h
      exact ih (attempt + 1) s h

/-- Claim C1: with a non-empty list of checks, any string that validate
returns passed the whole check chain on the final attempt: the check loop,
run in the order supplied, reports no failure on it, and every check in the
list accepts it; validate never returns a string on which some check threw
InvalidInput during that attempt. -/
theorem C1_validate_returns_fully_checked (fuel : Nat) (f : Nat → String) (cs : List Check)
    (s : String) (hne : cs ≠ []) (hv : validate fuel f cs = some s) :
    runChecks cs s = none ∧ ∀ c ∈ cs, c s = Except.ok () := by
  have hempty : cs.isEmpty = false := by
    cases cs with
    | nil => exact absurd rfl hne
    | cons a l => rfl
  rw [validate, hempty] at hv
  simp only [Bool.false_eq_true, if_false] at hv
  have h1 := validateLoop_some f cs fuel 0 s hv
  exact ⟨h1, (runChecks_eq_none_iff cs s).mp h1⟩

/-- Witness for C1: fuel 2, a producer whose first attempt is ab and later
attempts abc, and the single check length 3; validate returns abc and the
theorem yields that abc passes the whole chain. -/
theorem C1_validate_witness : runChecks [checks.length 3] "abc" = none :=
  (C1_validate_returns_fully_checked 2 (fun k => if k = 0 then "ab" else "abc")
    [checks.length 3] "abc" (List.cons_ne_nil _ _) (by decide)).1

/-- Claim C6: inverse is a strict complement of the wrapped check: it accepts
exactly when the wrapped check throws InvalidInput, and throws the default
InvalidInput exactly when the wrapped check accepts. -/
theorem C6_inverse_strict_complement (c : Check) (s : String) :
    (checks.wrappers.inverse c s = Except.ok () ↔ ∃ m, c s = Except.error m)
    ∧ (checks.wrappers.inverse c s = Except.error INVALID_INPUT_PROMPT ↔ c s = Except.ok ()) := by
  cases h : c s with
  | ok u => cases u; constructor <;> simp [checks.wrappers.inverse, h]
  | error m => constructor <;> simp [checks.wrappers.inverse, h]

/-- Loop of any accepts exactly when some check in the list accepts. -/
theorem anyLoop_ok_iff (s : String) (l : List Check) :
    checks.wrappers.anyLoop s l = Except.ok () ↔ ∃ c ∈ l, c s = Except.ok () := by
  induction l with
  | nil => simp [checks.wrappers.anyLoop]
  | cons c rest ih =>
    cases h : c s with
    | ok u => cases u; simp [checks.wrappers.anyLoop, h]
    | error m => simp [checks.wrappers.anyLoop, h, ih]

/-- Loop of any either accepts or throws the default InvalidInput. -/
theorem anyLoop_total (s : String) (l : List Check) :
    checks.wrappers.anyLoop s l = Except.ok ()
    ∨ checks.wrappers.anyLoop s l = Except.error INVALID_INPUT_PROMPT := by
  induction l with
  | nil => exact Or.inr rfl
  | cons c rest ih =>
    cases h : c s with
    | ok u => left; simp [checks.wrappers.anyLoop, h]
    | error m => simpa [checks.wrappers.anyLoop, h] using ih

/-- Claim C7: any accepts exactly when at least one of the wrapped checks,
tried in the order given, accepts; when every wrapped check rejects, it
throws the default InvalidInput after the whole list has been tried. -/
theorem C7_any_accepts_iff (cs : List Check) (s : String) :
    (checks.wrappers.any cs s = Except.ok () ↔ ∃ c ∈ cs, c s = Except.ok ())
    ∧ ((∀ c ∈ cs, c s ≠ Except.ok ()) →
        checks.wrappers.any cs s = Except.error INVALID_INPUT_PROMPT) := by
  constructor
  · exact anyLoop_ok_iff s cs
  · intro hall
    rcases anyLoop_total s cs with hok | herr
    · rcases (anyLoop_ok_iff s cs).mp hok with ⟨c, hc, hcs⟩
      exact absurd hcs (hall c hc)
    · exact herr

/-- Witness for C7: on the list of the checks length 3 and consists_of ab,
the candidate ab is accepted by the second check, so any accepts it. -/
theorem C7_any_witness :
    checks.wrappers.any [checks.length 3, checks.consists_of "ab"] "ab" = Except.ok () :=
  (C7_any_accepts_iff [checks.length 3, checks.consists_of "ab"] "ab").1.mpr
    ⟨checks.consists_of "ab", by simp, by decide⟩

/-- Claim C10: the loop body of any applied to an empty check list falls
through the for loop at once and throws the default InvalidInput, so it
rejects every candidate string rather than vacuously accepting. The variadic
template itself is however ill-formed at zero checks: the empty pack turns
the range-for initializer into an empty braced list whose element type
cannot be deduced, so the instantiation fails to compile. -/
theorem C10_any_empty_rejects (s : String) :
    checks.wrappers.any [] s = Except.error INVALID_INPUT_PROMPT := rfl

end In

namespace In

/-- Counterexample to claim C2: at end of input the low-level read returns
the EOF value cast to char, -1, which is not the NEWLINE confirm code, and a
basic_input read cycle on exhausted input does not terminate: it still has
not returned after 32 iterations. -/
theorem C2_eof_counterexample :
    (getch { flags := { icanon := true, echo := true, other := 0 },
             stdin := [], stdout := [] }).1 = -1
    ∧ (-1 : Int) ≠ NEWLINE
    ∧ basicInput none 32
        { flags := { icanon := true, echo := true, other := 0 }, stdin := [], stdout := [] }
        [] = none := by
  refine ⟨rfl, by decide, by decide⟩

/-- Claim C2 amended: a failed low-level read surfaces as the EOF value cast
to char, -1, which is neither the confirm code nor the delete code, so
basic_input treats it as an ordinary keystroke, appending and echoing it; a
read cycle on exhausted input therefore never terminates: whatever fuel the
loop is given, it has not returned. -/
theorem C2_amended_eof_loops (mask : Option Int) (fuel : Nat) (fl : TermFlags)
    (out acc : List Int) :
    basicInput mask fuel { flags := fl, stdin := [], stdout := out } acc = none := by
  induction fuel generalizing fl out acc with
  | zero => rfl
  | succ n ih =>
    simp only [basicInput, getch]
    norm_num [BACKSPACE, NEWLINE]
    exact ih _ _ _

/-- Counterexample to claim C5: when the terminal starts with ICANON and ECHO
clear, getch hands back control with both bits set, so the flag state after
the call differs from the flag state observed on entry. -/
theorem C5_flags_counterexample :
    (getch { flags := { icanon := false, echo := false, other := 5 },
             stdin := [7], stdout := [] }).2.flags
      ≠ { icanon := false, echo := false, other := 5 } := by decide

/-- Claim C5 amended: getch always returns with ICANON and ECHO forced on and
every other flag bit unchanged, because the final tcsetattr ORs the two bits
in instead of writing back the saved value; the flag state after the call
equals the state observed on entry exactly when the terminal already had
ICANON and ECHO set, the ordinary cooked mode. -/
theorem C5_amended_flags_forced_on (st : ConsoleState) :
    (getch st).2.flags = { icanon := true, echo := true, other := st.flags.other }
    ∧ (st.flags.icanon = true → st.flags.echo = true → (getch st).2.flags = st.flags) := by
  obtain ⟨⟨ic, ec, ot⟩, sin, sout⟩ := st
  refine ⟨rfl, ?_⟩
  intro h1 h2
  subst h1
  subst h2
  rfl

/-- Witness for C5 amended: starting from cooked mode with ICANON and ECHO
set, the flag state after getch equals the state before the call. -/
theorem C5_flags_witness :
    (getch { flags := { icanon := true, echo := true, other := 3 },
             stdin := [], stdout := [] }).2.flags
      = { icanon := true, echo := true, other := 3 } :=
  (C5_amended_flags_forced_on
    { flags := { icanon := true, echo := true, other := 3 }, stdin := [], stdout := [] }).2
    rfl rfl

end In

namespace In.checks

/-- With no dash in the class body, every parsed item is a singleton range. -/
theorem parseClassItems_no_dash (l : List Char) (h : ∀ c ∈ l, c ≠ '-') :
    parseClassItems l = l.map fun c => (c, c) := by
  induction l using parseClassItems.induct with
  | case1 => rfl
  | case2 a b rest2 ih => exact absurd rfl (h '-' (by simp))
  | case3 a rest h2 ih =>
    rw [parseClassItems]
    · rw [ih fun c hc => h c (List.mem_cons_of_mem _ hc)]
      rfl
    · exact h2

/-- With neither caret nor dash in the class body, matching the class is
exactly membership in the body. -/
theorem classMatches_mem (l : List Char) (x : Char)
    (hplain : ∀ c ∈ l, c ≠ '^' ∧ c ≠ '-') :
    classMatches l x = true ↔ x ∈ l := by
  have hnod : ∀ c ∈ l, c ≠ '-' := fun c hc => (hplain c hc).2
  cases l with
  | nil => simp [classMatches, parseClassItems]
  | cons a rest =>
    have ha : a ≠ '^' := (hplain a (List.mem_cons_self a rest)).1
    rw [classMatches.eq_def]
    split
    · rename_i heq
      exact absurd (List.cons.inj heq.symm).1.symm ha
    · rw [parseClassItems_no_dash _ hnod]
      simp only [List.any_eq_true, Bool.and_eq_true, decide_eq_true_eq]
      constructor
      · rintro ⟨c, hc, h1, h2⟩
        rcases List.mem_map.mp hc with ⟨y, hy, rfl⟩
        exact le_antisymm h1 h2 ▸ hy
      · intro hx
        exact ⟨(x, x), List.mem_map.mpr ⟨x, hx, rfl⟩, le_refl x, le_refl x⟩

/-- Acceptance condition of consists_of, unfolded. -/
theorem consists_of_ok_iff (a s : String) :
    consists_of a s = Except.ok () ↔
      (s.toList ≠ [] ∧ ∀ c ∈ s.toList, classMatches a.toList c = true) := by
  unfold consists_of
  split
  · rename_i hcond
    exact iff_of_true rfl hcond
  · rename_i hcond
    exact iff_of_false (by simp) hcond

/-- Counterexample to claim C3: the given string is spliced verbatim into a
regex character class, so a dash forms a range; consists_of of the string
a dash c accepts the candidate b even though b is not one of its
characters. -/
theorem C3_consists_of_counterexample :
    consists_of "a-c" "b" = Except.ok () ∧ 'b' ∉ "a-c".toList := by
  exact ⟨by decide, by decide⟩

/-- Claim C3 amended: the characters of the given string are read with
character-class syntax, so a dash forms a range and a leading caret negates.
When the string is free of the class metacharacters caret, dash, closing
bracket and backslash, the claim as stated holds: the built check accepts a
candidate exactly when it is non-empty and every one of its characters
occurs in the given string. -/
theorem C3_amended_consists_of (allowed s : String)
    (hplain : ∀ c ∈ allowed.toList, c ≠ '^' ∧ c ≠ '-' ∧ c ≠ ']' ∧ c ≠ '\\') :
    consists_of allowed s = Except.ok () ↔
      (s.toList ≠ [] ∧ ∀ c ∈ s.toList, c ∈ allowed.toList) := by
  have hp : ∀ c ∈ allowed.toList, c ≠ '^' ∧ c ≠ '-' :=
    fun c hc => ⟨(hplain c hc).1, (hplain c hc).2.1⟩
  rw [consists_of_ok_iff]
  constructor
  · rintro ⟨h1, h2⟩
    exact ⟨h1, fun c hc => (classMatches_mem allowed.toList c hp).mp (h2 c hc)⟩
  · rintro ⟨h1, h2⟩
    exact ⟨h1, fun c hc => (classMatches_mem allowed.toList c hp).mpr (h2 c hc)⟩

/-- Witness for C3 amended: the plain class abc accepts the candidate ab. -/
theorem C3_consists_of_witness : consists_of "abc" "ab" = Except.ok () :=
  (C3_amended_consists_of "abc" "ab" (by decide)).mpr (by decide)

/-- Counterexample to claim C4: the pattern of n arbitrary characters is n
ECMAScript dots, and a dot does not match a line terminator, so length 1
rejects the one-character candidate consisting of a single newline. -/
theorem C4_length_counterexample :
    length 1 "\n" = Except.error In.INVALID_INPUT_PROMPT ∧ ("\n" : String).length = 1 := by
  exact ⟨by decide, by decide⟩

/-- Claim C4 amended: length n accepts a candidate exactly when it has n
characters none of which is a line terminator; on candidates free of line
terminators this is the claimed exact length test. -/
theorem C4_amended_length (n : Nat) (s : String)
    (h : ∀ c ∈ s.toList, c ≠ '\n' ∧ c ≠ '\r') :
    length n s = Except.ok () ↔ s.length = n := by
  unfold length
  have hall : ∀ c ∈ s.toList, dotMatch c = true := by
    intro c hc
    simp [dotMatch, (h c hc).1, (h c hc).2]
  split
  · rename_i hcond
    exact iff_of_true rfl hcond.1
  · rename_i hcond
    refine iff_of_false (by simp) fun hlen => hcond ⟨hlen, hall⟩

/-- Witness for C4 amended: length 3 accepts the candidate abc. -/
theorem C4_length_witness : length 3 "abc" = Except.ok () :=
  (C4_amended_length 3 "abc" (by decide)).mpr (by decide)

end In.checks

namespace In.checks

/-- Counterexample to claim C8 as quantified over every numeric type T: char
is arithmetic, so range instantiates at char, but stream extraction into a
char stores the character itself, code 53 for the digit five, not the parsed
numeral; range at char with bounds 0 and 9 therefore rejects the candidate 5
even though it passes the numeric char check and its parsed numeric value 5
lies inside the inclusive bounds. -/
theorem C8_range_char_counterexample :
    numericChar "5" = Except.ok ()
    ∧ parseIntStream "5" = some 5
    ∧ ((0 : Int) ≤ 5 ∧ (5 : Int) ≤ 9)
    ∧ rangeChar 0 9 "5" = Except.error In.INVALID_INPUT_PROMPT :=
  ⟨by decide, by decide, by decide, by decide⟩

/-- Claim C8 amended, restricted to the instantiation at int, the type of
every particular the claim lists: range at int accepts a candidate exactly
when the numeric int check accepts it and stringstream extraction yields a
value inside the inclusive bounds; when extraction fails although the
numeric check accepted (int overflow), the candidate is rejected with the
default InvalidInput instead of crashing. At other numeric types whose
stream extraction does not parse a numeral, such as char, the claimed
equivalence fails. -/
theorem C8_range_int (mininimum maximum : Int) (s : String) :
    (range mininimum maximum s = Except.ok () ↔
      (numericInt s = Except.ok () ∧
        ∃ v, parseIntStream s = some v ∧ mininimum ≤ v ∧ v ≤ maximum))
    ∧ (numericInt s = Except.ok () → parseIntStream s = none →
        range mininimum maximum s = Except.error In.INVALID_INPUT_PROMPT) := by
  constructor
  · cases hn : numericInt s with
    | error m =>
      apply iff_of_false
      · simp [range, hn]
      · rintro ⟨hok, -⟩
        exact Except.noConfusion hok
    | ok u =>
      cases u
      cases hp : parseIntStream s with
      | none =>
        apply iff_of_false
        · simp [range, hn, hp]
        · rintro ⟨-, v, hv, -⟩
          exact Option.noConfusion hv
      | some v =>
        by_cases hout : v < mininimum ∨ maximum < v
        · apply iff_of_false
          · simp [range, hn, hp, hout]
          · rintro ⟨-, w, hw, h1, h2⟩
            injection hw with hw
            subst hw
            rcases hout with hlt | hlt
            · exact absurd h1 (not_le.mpr hlt)
            · exact absurd h2 (not_le.mpr hlt)
        · apply iff_of_true
          · simp [range, hn, hp, hout]
          · push_neg at hout
            exact ⟨rfl, v, rfl, hout.1, hout.2⟩
  · intro hok hnone
    simp [range, hok, hnone]

/-- Witness for C8: range 1 10 accepts the candidate 5 and rejects 0, 11, -3
and x; the overflowing candidate passes the numeric check, fails stream
extraction, and is rejected with the default message instead of crashing. -/
theorem C8_range_witness :
    range 1 10 "5" = Except.ok ()
    ∧ range 1 10 "0" = Except.error In.INVALID_INPUT_PROMPT
    ∧ range 1 10 "11" = Except.error In.INVALID_INPUT_PROMPT
    ∧ range 1 10 "-3" = Except.error In.INVALID_INPUT_PROMPT
    ∧ range 1 10 "x" = Except.error In.INVALID_INPUT_PROMPT
    ∧ range 1 10 "99999999999" = Except.error In.INVALID_INPUT_PROMPT :=
  ⟨(C8_range_int 1 10 "5").1.mpr ⟨by decide, 5, by decide, by decide, by decide⟩,
   by decide, by decide, by decide, by decide,
   (C8_range_int 1 10 "99999999999").2 (by decide) (by decide)⟩

end In.checks

namespace In

/-- Raw keystroke read writes nothing to standard output. -/
theorem getch_stdout (st : ConsoleState) : (getch st).2.stdout = st.stdout := rfl

/-- One unfolding step of the basic_input loop. -/
theorem basicInput_succ (mask : Option Int) (n : Nat) (st : ConsoleState) (acc : List Int) :
    basicInput mask (n + 1) st acc =
      if (getch st).1 = BACKSPACE then
        if acc.isEmpty then basicInput mask n (getch st).2 acc
        else basicInput mask n
          { (getch st).2 with stdout := (getch st).2.stdout ++ [CURSOR_BACK, SPACE, CURSOR_BACK] }
          acc.dropLast
      else if (getch st).1 = NEWLINE then some (acc, (getch st).2)
      else basicInput mask n
        { (getch st).2 with stdout := (getch st).2.stdout ++ [mask.getD (getch st).1] }
        (acc ++ [(getch st).1]) := rfl

/-- Raw read on a pending byte: returns it, consumes it, forces the flags. -/
theorem getch_cons (fl : TermFlags) (a : Int) (as out : List Int) :
    getch { flags := fl, stdin := a :: as, stdout := out }
      = (a, { flags := { icanon := true, echo := true, other := fl.other },
              stdin := as, stdout := out }) := rfl

/-- Raw read on exhausted input: returns the EOF cast -1, forces the flags. -/
theorem getch_nil (fl : TermFlags) (out : List Int) :
    getch { flags := fl, stdin := [], stdout := out }
      = (-1, { flags := { icanon := true, echo := true, other := fl.other },
               stdin := [], stdout := out }) := rfl

/-- Display bytes a completed masked basic_input read appends are only the
mask glyph and the two erase bytes, never a literal entered character. -/
theorem basicInput_masked_stdout (m : Int) :
    ∀ (fuel : Nat) (st : ConsoleState) (acc res : List Int) (stF : ConsoleState),
      basicInput (some m) fuel st acc = some (res, stF) →
      ∃ delta, stF.stdout = st.stdout ++ delta
        ∧ ∀ x ∈ delta, x = m ∨ x = CURSOR_BACK ∨ x = SPACE := by
  intro fuel
  induction fuel with
  | zero => intro st acc res stF h; exact Option.noConfusion h
  | succ n ih =>
    intro st acc res stF h
    rw [basicInput_succ] at h
    split at h
    · split at h
      · exact ih ((getch st).2) acc res stF h
      · rcases ih _ acc.dropLast res stF h with ⟨delta, hd1, hd2⟩
        refine ⟨[CURSOR_BACK, SPACE, CURSOR_BACK] ++ delta, ?_, ?_⟩
        · rw [hd1]
          simp [getch_stdout]
        · intro x hx
          rcases List.mem_append.mp hx with hx | hx
          · simp only [List.mem_cons, List.mem_singleton, List.not_mem_nil, or_false] at hx
            rcases hx with rfl | rfl | rfl
            · exact Or.inr (Or.inl rfl)
            · exact Or.inr (Or.inr rfl)
            · exact Or.inr (Or.inl rfl)
          · exact hd2 x hx
    · split at h
      · rw [Option.some.injEq, Prod.mk.injEq] at h
        refine ⟨[], ?_, by simp⟩
        rw [← h.2]
        simp [getch_stdout]
      · rcases ih _ (acc ++ [(getch st).1]) res stF h with ⟨delta, hd1, hd2⟩
        refine ⟨m :: delta, ?_, ?_⟩
        · rw [hd1]
          simp [getch_stdout]
        · intro x hx
          rcases List.mem_cons.mp hx with rfl | hx
          · exact Or.inl rfl
          · exact hd2 x hx

/-- Keystroke streams with the same control-key skeleton: equal length, with
the delete code and the confirm code at exactly the same positions. -/
def sameKeyShape : List Int → List Int → Prop
  | [], [] => True
  | a :: as, b :: bs =>
      ((a = BACKSPACE) ↔ (b = BACKSPACE)) ∧ ((a = NEWLINE) ↔ (b = NEWLINE))
        ∧ sameKeyShape as bs
  | _, _ => False

/-- Masked basic_input reads on streams with the same control-key skeleton
and accumulators of equal length return the same display output and the same
returned length: the display depends only on the skeleton. -/
theorem basicInput_masked_same_display (m : Int) :
    ∀ (fuel : Nat) (in1 in2 : List Int) (fl1 fl2 : TermFlags) (out acc1 acc2 : List Int),
      sameKeyShape in1 in2 → acc1.length = acc2.length →
      Option.map (fun r => (r.1.length, r.2.stdout))
          (basicInput (some m) fuel { flags := fl1, stdin := in1, stdout := out } acc1)
        = Option.map (fun r => (r.1.length, r.2.stdout))
          (basicInput (some m) fuel { flags := fl2, stdin := in2, stdout := out } acc2) := by
  intro fuel
  induction fuel with
  | zero => intro in1 in2 fl1 fl2 out acc1 acc2 hshape hlen; rfl
  | succ n ih =>
    intro in1 in2 fl1 fl2 out acc1 acc2 hshape hlen
    cases in1 with
    | nil =>
      cases in2 with
      | nil =>
        rw [basicInput_succ, basicInput_succ, getch_nil, getch_nil]
        norm_num [BACKSPACE, NEWLINE]
        exact ih [] [] _ _ _ _ _ trivial (by simpa using hlen)
      | cons b bs => exact (hshape : False).elim
    | cons a as =>
      cases in2 with
      | nil => exact (hshape : False).elim
      | cons b bs =>
        simp only [sameKeyShape] at hshape
        obtain ⟨hbsp, hnl, hrest⟩ := hshape
        rw [basicInput_succ, basicInput_succ, getch_cons, getch_cons]
        dsimp only
        by_cases hb : a = BACKSPACE
        · rw [if_pos hb, if_pos (hbsp.mp hb)]
          cases acc1 with
          | nil =>
            cases acc2 with
            | nil =>
              simp only [List.isEmpty_nil, if_true]
              exact ih as bs _ _ _ _ _ hrest rfl
            | cons y ys => simp at hlen
          | cons x xs =>
            cases acc2 with
            | nil => simp at hlen
            | cons y ys =>
              have hlen2 : xs.length = ys.length := by simpa using hlen
              simp only [List.isEmpty_cons, Bool.false_eq_true, if_false]
              exact ih as bs _ _ _ _ _ hrest
                (by simp [List.length_dropLast, hlen2])
        · have hb2 : ¬b = BACKSPACE := fun hh => hb (hbsp.mpr hh)
          rw [if_neg hb, if_neg hb2]
          by_cases ha1 : a = NEWLINE
          · rw [if_pos ha1, if_pos (hnl.mp ha1)]
            simp [hlen]
          · have ha2 : ¬b = NEWLINE := fun hh => ha1 (hnl.mpr hh)
            rw [if_neg ha1, if_neg ha2]
            simp only [Option.getD_some]
            exact ih as bs _ _ _ _ _ hrest (by simp [hlen])

/-- Claim C9: masked display leaks nothing but the key skeleton: a completed
masked read appends only mask glyphs and erase bytes to the display, never a
literal entered character, and two masked runs whose keystroke streams share
length and delete and confirm positions produce identical display output and
returned length, whatever characters were entered. -/
theorem C9_masked_no_leak :
    (∀ (fuel : Nat) (st : ConsoleState) (acc res : List Int) (stF : ConsoleState),
        basicInput (some INPUT_MASK) fuel st acc = some (res, stF) →
        ∃ delta, stF.stdout = st.stdout ++ delta
          ∧ ∀ x ∈ delta, x = INPUT_MASK ∨ x = CURSOR_BACK ∨ x = SPACE)
    ∧ (∀ (fuel : Nat) (in1 in2 : List Int) (fl1 fl2 : TermFlags) (out acc1 acc2 : List Int),
        sameKeyShape in1 in2 → acc1.length = acc2.length →
        Option.map (fun r => (r.1.length, r.2.stdout))
            (basicInput (some INPUT_MASK) fuel
              { flags := fl1, stdin := in1, stdout := out } acc1)
          = Option.map (fun r => (r.1.length, r.2.stdout))
            (basicInput (some INPUT_MASK) fuel
              { flags := fl2, stdin := in2, stdout := out } acc2)) :=
  ⟨basicInput_masked_stdout INPUT_MASK, basicInput_masked_same_display INPUT_MASK⟩

/-- Witness for C9: the masked runs typing the letter a then confirm and the
letter b then confirm produce the same display output and returned length. -/
theorem C9_masked_witness :
    Option.map (fun r => (r.1.length, r.2.stdout))
        (basicInput (some INPUT_MASK) 2
          { flags := { icanon := true, echo := true, other := 0 },
            stdin := [97, 10], stdout := [] } [])
      = Option.map (fun r => (r.1.length, r.2.stdout))
        (basicInput (some INPUT_MASK) 2
          { flags := { icanon := true, echo := true, other := 0 },
            stdin := [98, 10], stdout := [] } []) :=
  C9_masked_no_leak.2 2 [97, 10] [98, 10] _ _ [] [] []
    (by norm_num [sameKeyShape, BACKSPACE, NEWLINE]) rfl

end In
